import Mathlib

/-!
# Factory and HTTP client of `sm-gh-api`

A shallow embedding of `pkg/cmd/factory/default.go`, `pkg/cmd/factory/http.go` and of the
argument validator of `extensions upgrade` in `pkg/extensions/command.go`.

Go values are embedded as follows.

* A Go interface or pointer value is an `Option`: `none` is `nil`.
* A Go `(value, error)` result is a pair whose second component is an `Option GoError`.
* A closure that captures mutable variables becomes a function on an explicit `World`,
  the record of those variables.
* A computation that may fault at run time (nil dereference, index out of range) returns an
  `Option`: `none` is the panic.
-/

namespace SmGhApi

/-! ## Errors -/

/-- Go `error` values, as far as `errors.Is(err, os.ErrNotExist)` can tell them apart.
`notExist` is the sentinel `os.ErrNotExist` (and any error whose `Is` method matches it),
`other` is any unrelated leaf error, `wrap` is an error that wraps another one
(`fmt.Errorf("...: %w", err)`, `*fs.PathError`). -/
inductive GoError where
  | notExist : GoError
  | other (msg : String) : GoError
  | wrap (msg : String) (inner : GoError) : GoError
  deriving DecidableEq, Repr

/-- The chain walk of `errors.Is(err, os.ErrNotExist)` on a non-nil error. -/
def GoError.isNotExist : GoError → Bool
  | .notExist => true
  | .other _ => false
  | .wrap _ inner => inner.isNotExist

/-- The call `errors.Is(err, os.ErrNotExist)`; a nil error is not the sentinel. -/
def errorsIsNotExist : Option GoError → Bool
  | none => false
  | some e => e.isNotExist

/-! ## Configuration values -/

/-- Modelled from the spec: the values of the interface `config.Config` (package
`core/config` is not among the sources). A configuration is either one that the parser
produced from a file (a list of host, key, value entries), the blank configuration, the
environment layer put on top of another configuration, or the environment layer put on top
of a nil configuration. -/
inductive Config where
  | parsed (entries : List (String × String × String)) : Config
  | blank : Config
  | envLayer (inner : Config) : Config
  | envLayerOfNil : Config
  deriving DecidableEq, Repr

/-- Modelled from the spec: `config.NewBlankConfig()`, the empty configuration. -/
def NewBlankConfig : Config := Config.blank

/-- Modelled from the spec: `config.InheritEnv(c)`, the layer that merges the process
environment on top of `c`. It allocates a new layer, so its result is never nil. -/
def InheritEnv : Option Config → Option Config
  | some c => some (Config.envLayer c)
  | none => some Config.envLayerOfNil

/-! ## The world of the closures -/

/-- Calls that the development keeps a record of. -/
inductive Call where
  | configAccessor
  | parseDefaultConfig
  | branchAccessor
  | remotesAccessor
  | httpClientAccessor
  | osExecutable
  deriving DecidableEq, Repr

/-- The variables captured by the closure of `configFunc` (`cachedConfig`, `configError`)
and the record of calls made so far, newest first. The record is ghost state: no code
reads it, except that the number of earlier parser invocations selects the parser's
next answer. -/
structure World where
  cachedConfig : Option Config
  configError : Option GoError
  log : List Call
  deriving DecidableEq, Repr

/-- The world right after `configFunc()` declared its two variables: both nil. -/
def World.init : World := { cachedConfig := none, configError := none, log := [] }

/-- Number of invocations of `config.ParseDefaultConfig` so far. -/
def World.parserCalls (w : World) : Nat := w.log.count Call.parseDefaultConfig

/-- Number of calls of the Config accessor so far. -/
def World.configCalls (w : World) : Nat := w.log.count Call.configAccessor

/-- A parameterless Go function `func() T` that reads and writes captured variables and
may panic. -/
abbrev Accessor (α : Type) := World → Option (α × World)

/-- A Go `(config.Config, error)` pair. -/
abbrev ConfigResult := Option Config × Option GoError

/-- The behaviour of `config.ParseDefaultConfig`: its answer at each invocation, given the
number of invocations before it. Nothing is assumed about the answers. -/
abbrev Parser := Nat → ConfigResult

/-- The closure returned by `configFunc()`. -/
def configFunc (parse : Parser) : Accessor ConfigResult := fun w =>
  -- ghost: record the call
  let w := { w with log := Call.configAccessor :: w.log }
  if w.cachedConfig ≠ none ∨ w.configError ≠ none then
    some ((w.cachedConfig, w.configError), w)
  else
    let r := parse w.parserCalls
    -- ghost: record the invocation of the parser
    let w := { w with log := Call.parseDefaultConfig :: w.log }
    let (cachedConfig, configError) :=
      if errorsIsNotExist r.2 then (some NewBlankConfig, none) else r
    let cachedConfig := InheritEnv cachedConfig
    some ((cachedConfig, configError),
      { w with cachedConfig := cachedConfig, configError := configError })

/-- Calls an accessor `n` times in a row; returns the results in call order and the final
world. -/
def callTimes {α : Type} (acc : Accessor α) : Nat → World → Option (List α × World)
  | 0, w => some ([], w)
  | n + 1, w =>
    match acc w with
    | none => none
    | some (r, w1) =>
      match callTimes acc n w1 with
      | none => none
      | some (rs, w2) => some (r :: rs, w2)

/-! ## Process environment -/

/-- The process environment: `none` is an unset variable, `some ""` one set to the empty
string. -/
abbrev Environ := String → Option String

/-- The call `os.Getenv(key)`: the value, empty when the variable is unset. -/
def Getenv (env : Environ) (key : String) : String := (env key).getD ""

/-- The call `os.LookupEnv(key)`: the value and whether the variable is set. -/
def LookupEnv (env : Environ) (key : String) : String × Bool :=
  match env key with
  | some v => (v, true)
  | none => ("", false)

/-! ## `http.go` -/

/-- The table `timezoneNames`, in source order. -/
def timezoneNames : List (Int × String) :=
  [ (-39600, "Pacific/Niue"),
    (-36000, "Pacific/Honolulu"),
    (-34200, "Pacific/Marquesas"),
    (-32400, "America/Anchorage"),
    (-28800, "America/Los_Angeles"),
    (-25200, "America/Chihuahua"),
    (-21600, "America/Chicago"),
    (-18000, "America/Bogota"),
    (-14400, "America/Caracas"),
    (-12600, "America/St_Johns"),
    (-10800, "America/Argentina/Buenos_Aires"),
    (-7200, "Atlantic/South_Georgia"),
    (-3600, "Atlantic/Cape_Verde"),
    (0, "Europe/London"),
    (3600, "Europe/Amsterdam"),
    (7200, "Europe/Athens"),
    (10800, "Europe/Istanbul"),
    (12600, "Asia/Tehran"),
    (14400, "Asia/Dubai"),
    (16200, "Asia/Kabul"),
    (18000, "Asia/Tashkent"),
    (19800, "Asia/Kolkata"),
    (20700, "Asia/Kathmandu"),
    (21600, "Asia/Dhaka"),
    (23400, "Asia/Rangoon"),
    (25200, "Asia/Bangkok"),
    (28800, "Asia/Manila"),
    (31500, "Australia/Eucla"),
    (32400, "Asia/Tokyo"),
    (34200, "Australia/Darwin"),
    (36000, "Australia/Brisbane"),
    (37800, "Australia/Adelaide"),
    (39600, "Pacific/Guadalcanal"),
    (43200, "Pacific/Nauru"),
    (46800, "Pacific/Auckland"),
    (49500, "Pacific/Chatham"),
    (50400, "Pacific/Kiritimati") ]

/-- Indexing a Go `map[int]string`: the value of the key, the empty string for a key that
is not in the map. -/
def mapIndex (m : List (Int × String)) (key : Int) : String :=
  match m.find? (fun kv => kv.1 == key) with
  | some kv => kv.2
  | none => ""

/-- The interface `configGetter`: its one method `Get(hostname, key)`. -/
abbrev configGetter := String → String → String × Option GoError

/-- The fields of `url.URL` that the code reads. -/
structure URL where
  Host : String
  deriving DecidableEq, Repr

/-- The standard library's `validOptionalPort`: empty, or a colon followed by digits. -/
def validOptionalPort : List Char → Bool
  | [] => true
  | c :: rest => c == ':' && rest.all (fun b => !(b < '0' || b > '9'))

/-- The standard library's `strings.LastIndexByte` on the characters of a string. -/
def lastIndexByte (s : List Char) (c : Char) : Option Nat :=
  (List.range s.length).reverse.find? (fun i => s.get? i == some c)

/-- The standard library's `(*URL).Hostname`: `Host` without a valid port and without the
square brackets of an IPv6 literal. -/
def URL.Hostname (u : URL) : String :=
  let hostPort := u.Host.toList
  let host :=
    match lastIndexByte hostPort ':' with
    | some colon => if validOptionalPort (hostPort.drop colon) then hostPort.take colon
                    else hostPort
    | none => hostPort
  let host :=
    if host.head? = some '[' ∧ host.getLast? = some ']' then
      (host.drop 1).take (host.length - 2)
    else host
  String.mk host

/-- The fields of `http.Request` that the code reads. -/
structure Request where
  Method : String
  Host : String
  URL : URL
  deriving DecidableEq, Repr

/-- The function `getHost`. -/
def getHost (r : Request) : String :=
  if r.Host ≠ "" then r.Host else r.URL.Hostname

/-- What the Time-Zone decorator reads from package `time` when a request is sent:
`time.Local.String()` and the offset in seconds that `time.Now().Zone()` returns. -/
structure Clock where
  localName : String
  zoneOffset : Int
  deriving DecidableEq, Repr

/-- The value function of a header decorator, `func(*http.Request) (string, error)`,
given the clock at the time of the request. -/
abbrev HeaderFunc := Clock → Request → String × Option GoError

/-- The values of `api.ClientOption` that `NewHTTPClient` builds (package `api` is not
among the sources, so an option is kept as the call that made it). -/
inductive ClientOption where
  | unixSocket (address : String) : ClientOption
  | verboseLog (logTraffic : Bool) (colorize : Bool) : ClientOption
  | addHeader (name : String) (value : String) : ClientOption
  | addHeaderFunc (name : String) (getValue : HeaderFunc) : ClientOption

/-- The client that `api.NewHTTPClient(opts...)` returns, kept as its options in
registration order. -/
structure HTTPClient where
  opts : List ClientOption

/-- The fields of `iostreams.IOStreams` that the factory sets or reads. -/
structure IOStreams where
  pagerCommand : String
  neverPrompt : Bool
  stderrTTY : Bool
  deriving DecidableEq, Repr

/-- The setter `(*IOStreams).SetPager`. -/
def IOStreams.SetPager (io : IOStreams) (cmd : String) : IOStreams :=
  { io with pagerCommand := cmd }

/-- The setter `(*IOStreams).SetNeverPrompt`. -/
def IOStreams.SetNeverPrompt (io : IOStreams) (v : Bool) : IOStreams :=
  { io with neverPrompt := v }

/-- The standard library's `strings.Contains`. -/
def stringsContains (s substr : String) : Bool :=
  s.toList.tails.any (fun t => substr.toList.isPrefixOf t)

/-- The closure registered for the `Authorization` header. `normalizeHostname` is
`ghinstance.NormalizeHostname`, which is not among the sources. -/
def authorizationHeader (normalizeHostname : String → String) (cfg : configGetter) :
    HeaderFunc := fun _ req =>
  let hostname := normalizeHostname (getHost req)
  let (token, err) := cfg hostname "oauth_token"
  if err = none ∧ token ≠ "" then ("token " ++ token, none) else ("", none)

/-- The closure registered for the `Time-Zone` header. -/
def timeZoneHeader : HeaderFunc := fun clock req =>
  if req.Method ≠ "GET" ∧ req.Method ≠ "HEAD" then
    if clock.localName ≠ "Local" then (clock.localName, none)
    else (mapIndex timezoneNames clock.zoneOffset, none)
  else ("", none)

/-- The closure registered for the `Accept` header. `isEnterprise` is
`ghinstance.IsEnterprise`, which is not among the sources. -/
def acceptHeader (isEnterprise : String → Bool) : HeaderFunc := fun _ req =>
  let accept := "application/vnd.github.merge-info-preview+json"
  let accept := accept ++ ", application/vnd.github.nebula-preview"
  let accept :=
    if isEnterprise (getHost req) then
      (accept ++ ", application/vnd.github.antiope-preview")
        ++ ", application/vnd.github.shadow-cat-preview"
    else accept
  (accept, none)

/-- The parts of package `ghinstance` that `NewHTTPClient` calls. -/
structure GhInstance where
  NormalizeHostname : String → String
  IsEnterprise : String → Bool

/-- The function `NewHTTPClient`. `io` may be a nil pointer; it is dereferenced only when
`DEBUG` is non-empty. -/
def NewHTTPClient (env : Environ) (gh : GhInstance) (io : Option IOStreams)
    (cfg : configGetter) (appVersion : String) (setAccept : Bool) :
    Option (Option HTTPClient × Option GoError) :=
  let opts : List ClientOption := []
  let (unixSocket, err) := cfg "" "http_unix_socket"
  if err ≠ none then some (none, err)
  else
    let opts := if unixSocket ≠ "" then opts ++ [ClientOption.unixSocket unixSocket] else opts
    let verbose := Getenv env "DEBUG"
    let opts? : Option (List ClientOption) :=
      if verbose ≠ "" then
        let logTraffic := stringsContains verbose "api"
        match io with
        | none => none
        | some io => some (opts ++ [ClientOption.verboseLog logTraffic io.stderrTTY])
      else some opts
    match opts? with
    | none => none
    | some opts =>
      let opts := opts ++
        [ ClientOption.addHeader "User-Agent" ("GitHub API " ++ appVersion),
          ClientOption.addHeaderFunc "Authorization"
            (authorizationHeader gh.NormalizeHostname cfg),
          ClientOption.addHeaderFunc "Time-Zone" timeZoneHeader ]
      let opts :=
        if setAccept then
          opts ++ [ClientOption.addHeaderFunc "Accept" (acceptHeader gh.IsEnterprise)]
        else opts
      some (some { opts := opts }, none)

/-- The value functions that a client registered for header `name`, in order. -/
def HTTPClient.headerFuncs (c : HTTPClient) (name : String) : List HeaderFunc :=
  c.opts.filterMap (fun o =>
    match o with
    | ClientOption.addHeaderFunc n g => if n = name then some g else none
    | _ => none)

/-! ## `default.go` -/

/-- An entry of `context.Remotes`: the git remote and the repository it points to. The
entry itself is the `ghrepo.Interface` value that `BaseRepoFunc` hands out. -/
structure Remote where
  Name : String
  RepoHost : String
  RepoOwner : String
  RepoName : String
  deriving DecidableEq, Repr

/-- The value that `cmdutil.NewBrowser(launcher, out, errOut)` returns, kept as the launcher
it was given. -/
structure Browser where
  launcher : String
  deriving DecidableEq, Repr

/-- The fields of `cmdutil.Factory` that `New` fills in. -/
structure Factory where
  Config : Accessor ConfigResult
  Branch : Accessor (String × Option GoError)
  Executable : String
  IOStreams : Option IOStreams
  HttpClient : Accessor (Option HTTPClient × Option GoError)
  Remotes : Accessor (List Remote × Option GoError)
  BaseRepo : Accessor (Option Remote × Option GoError)
  Browser : Option Browser

/-- A nil function value: calling it panics. -/
def nilFunc {α : Type} : Accessor α := fun _ => none

/-- The zero value `cmdutil.Factory{}`. -/
def Factory.zero : Factory :=
  { Config := nilFunc, Branch := nilFunc, Executable := "", IOStreams := none,
    HttpClient := nilFunc, Remotes := nilFunc, BaseRepo := nilFunc, Browser := none }

/-- Everything outside the factory that its code consults. The functions stand for code
that is not among the sources; nothing is assumed about them. -/
structure Sys where
  -- the process environment
  env : Environ
  -- the function `config.ParseDefaultConfig`
  parse : Parser
  -- the method `Get(hostname, key)` of a non-nil `config.Config`
  cfgGet : Config → configGetter
  -- the result of `os.Executable()`
  osExecutable : String × Option GoError
  -- the result of `git.CurrentBranch()`
  gitCurrentBranch : String × Option GoError
  -- whether standard error is a terminal, as `iostreams.System()` finds it
  stderrTTY : Bool
  -- the closure that `remoteResolver.Resolver()` returns for `getConfig: c`
  resolver : Accessor ConfigResult → Accessor (List Remote × Option GoError)
  -- package `ghinstance`
  gh : GhInstance

/-- Modelled from the spec: `iostreams.System()` (package `pkg/iostreams` is not among the
sources). The spec gives the `PAGER` environment variable as the last pager source, and
only `iostreams.System()` can supply it; prompting is on until it is switched off. -/
def System (sys : Sys) : IOStreams :=
  { pagerCommand := Getenv sys.env "PAGER", neverPrompt := false, stderrTTY := sys.stderrTTY }

/-- The closure returned by `BaseRepoFunc(f)`. Indexing an empty list panics. -/
def BaseRepoFunc (f : Factory) : Accessor (Option Remote × Option GoError) := fun w =>
  match f.Remotes w with
  | none => none
  | some ((remotes, err), w) =>
    if err ≠ none then some ((none, err), w)
    else
      match remotes with
      | [] => none
      | r :: _ => some ((some r, none), w)

/-- The function `remotesFunc`; the accessor records its call (ghost). -/
def remotesFunc (sys : Sys) (f : Factory) : Accessor (List Remote × Option GoError) :=
  fun w => sys.resolver f.Config { w with log := Call.remotesAccessor :: w.log }

/-- The closure returned by `httpClientFunc(f, appVersion)`; its first line records the
call (ghost). Passing a nil configuration on makes `NewHTTPClient` panic at its first
`cfg.Get`. -/
def httpClientFunc (sys : Sys) (f : Factory) (appVersion : String) :
    Accessor (Option HTTPClient × Option GoError) := fun w =>
  let w := { w with log := Call.httpClientAccessor :: w.log }
  let io := f.IOStreams
  match f.Config w with
  | none => none
  | some ((cfg, err), w) =>
    if err ≠ none then some ((none, err), w)
    else
      match cfg with
      | none => none
      | some cfg =>
        match NewHTTPClient sys.env sys.gh io (sys.cfgGet cfg) appVersion true with
        | none => none
        | some r => some (r, w)

/-- The function `browserLauncher`. Calling `Get` on a nil configuration panics. -/
def browserLauncher (sys : Sys) (f : Factory) : Accessor String := fun w =>
  let smBrowser := Getenv sys.env "GH_BROWSER"
  if smBrowser ≠ "" then some (smBrowser, w)
  else
    match f.Config w with
    | none => none
    | some ((cfg, err), w) =>
      if err = none then
        match cfg with
        | none => none
        | some cfg =>
          let cfgBrowser := (sys.cfgGet cfg "" "browser").1
          if cfgBrowser ≠ "" then some (cfgBrowser, w)
          else some (Getenv sys.env "BROWSER", w)
      else some (Getenv sys.env "BROWSER", w)

/-- The function `browser`. -/
def browser (sys : Sys) (f : Factory) : Accessor Browser := fun w =>
  let io := f.IOStreams
  match browserLauncher sys f w with
  | none => none
  | some (launcher, w) =>
    match io with
    | none => none
    | some _ => some ({ launcher := launcher }, w)

/-- The function `executable`; its first line records the call of `os.Executable`
(ghost). -/
def executable (sys : Sys) (w : World) : String × World :=
  let w := { w with log := Call.osExecutable :: w.log }
  let secman := "secman"
  let (exe, err) := sys.osExecutable
  let secman := if err = none then exe else secman
  (secman, w)

/-- The closure returned by `branchFunc()`; its first line records the call (ghost). -/
def branchFunc (sys : Sys) : Accessor (String × Option GoError) := fun w =>
  let w := { w with log := Call.branchAccessor :: w.log }
  let (currentBranch, err) := sys.gitCurrentBranch
  match err with
  | some e => some (("", some (GoError.wrap "could not determine current branch" e)), w)
  | none => some ((currentBranch, none), w)

/-- The function `ioStreams`. -/
def ioStreams (sys : Sys) (f : Factory) : Accessor IOStreams := fun w =>
  let io := System sys
  match f.Config w with
  | none => none
  | some ((cfg, err), w) =>
    if err ≠ none then some (io, w)
    else
      match cfg with
      | none => none
      | some cfg =>
        let prompt := (sys.cfgGet cfg "" "prompt").1
        let io := if prompt = "disabled" then io.SetNeverPrompt true else io
        let (ghPager, ghPagerExists) := LookupEnv sys.env "GH_PAGER"
        let io :=
          if ghPagerExists then io.SetPager ghPager
          else
            let pager := (sys.cfgGet cfg "" "pager").1
            if pager ≠ "" then io.SetPager pager else io
        some (io, w)

/-- The function `New`, run in the world where `configFunc()` has just declared its
variables. -/
def New (sys : Sys) : Option (Factory × World) :=
  let w := World.init
  let config := configFunc sys.parse
  let branch := branchFunc sys
  let (exe, w) := executable sys w
  let f := { Factory.zero with Config := config, Branch := branch, Executable := exe }
  match ioStreams sys f w with
  | none => none
  | some (io, w) =>
    let f := { f with IOStreams := some io }
    let f := { f with HttpClient := httpClientFunc sys f "x" }
    let f := { f with Remotes := remotesFunc sys f }
    let f := { f with BaseRepo := BaseRepoFunc f }
    match browser sys f w with
    | none => none
    | some (b, w) => some ({ f with Browser := some b }, w)

/-! ## `extensions upgrade` -/

/-- The type `cmdutil.FlagError`, the usage error; `Err` is the message of the wrapped error. -/
structure FlagError where
  Err : String
  deriving DecidableEq, Repr

/-- The `Args` function of the `upgrade` command; `flagAll` is the variable bound to
`--all`. -/
def upgradeArgs (flagAll : Bool) (args : List String) : Option FlagError :=
  if args.length = 0 ∧ ¬ flagAll then
    some { Err := "must specify an extension to upgrade" }
  else if args.length > 0 ∧ flagAll then
    some { Err := "cannot use `--all` with extension name" }
  else if args.length > 1 then
    some { Err := "too many arguments" }
  else none

/-- What a run of the `upgrade` command ends in. -/
inductive CmdResult where
  | usage (e : FlagError) : CmdResult
  | ran (err : Option GoError) : CmdResult
  deriving DecidableEq, Repr

/-- The `RunE` function of the `upgrade` command. `upgrade` is the manager's `Upgrade`
method; the second component is the list of names it was called with. -/
def upgradeRunE (upgrade : String → Option GoError) (args : List String) :
    Option GoError × List String :=
  let name := ""
  let name := if args.length > 0 then args.headD name else name
  (upgrade name, [name])

/-- A run of the `upgrade` command as cobra performs it: the `Args` function first, and
`RunE` only when `Args` returned nil. -/
def upgradeCommand (upgrade : String → Option GoError) (flagAll : Bool)
    (args : List String) : CmdResult × List String :=
  match upgradeArgs flagAll args with
  | some e => (CmdResult.usage e, [])
  | none =>
    let (err, calls) := upgradeRunE upgrade args
    (CmdResult.ran err, calls)

/-! ## Specification-side definitions -/

/-- The precedence policy in the words of the spec: the first candidate that is not
empty, and the empty string when there is none. -/
def firstNonEmpty : List String → String
  | [] => ""
  | s :: rest => if s ≠ "" then s else firstNonEmpty rest

/-- The value that the unscoped configuration key `key` contributes, given the result of
the Config accessor: the value `Get` reports when the accessor succeeded, nothing when it
failed. -/
def configValue (sys : Sys) (r : ConfigResult) (key : String) : String :=
  match r with
  | (some cfg, none) => (sys.cfgGet cfg "" key).1
  | _ => ""

/-! ## Definitions used in the proofs -/

/-- A world in which the closure of `configFunc` already holds a result: the test at the
head of the closure succeeds. -/
def World.cached (w : World) : Prop := w.cachedConfig ≠ none ∨ w.configError ≠ none

/-- The pair that the closure of `configFunc` computes from the answer of the parser when
it holds no result yet. -/
def recovered (r : ConfigResult) : ConfigResult :=
  if errorsIsNotExist r.2 then (InheritEnv (some NewBlankConfig), none)
  else (InheritEnv r.1, r.2)

/-! ## Example inputs -/

/-- A configuration getter with a token for `github.com` and a pager. -/
def exampleGetter : configGetter := fun hostname key =>
  if hostname = "github.com" ∧ key = "oauth_token" then ("abc123", none)
  else if hostname = "" ∧ key = "pager" then ("less", none)
  else if key = "oauth_token" then ("", some (GoError.other "not found"))
  else ("", none)

/-- A process without environment variables and without a configuration file, where
every configuration answers like `exampleGetter` and only `github.com` is not an
enterprise host. -/
def exampleSys : Sys :=
  { env := fun _ => none,
    parse := fun _ => (none, some (GoError.wrap "open config.yml" GoError.notExist)),
    cfgGet := fun _ => exampleGetter,
    osExecutable := ("/usr/local/bin/secman", none),
    gitCurrentBranch := ("main", none),
    stderrTTY := false,
    resolver := fun _ w => some (([], some (GoError.other "not a git repository")), w),
    gh := { NormalizeHostname := fun h => h, IsEnterprise := fun h => h != "github.com" } }

/-- The client that `NewHTTPClient` builds in `exampleSys` for version `x` with accept
negotiation on. -/
def exampleClient : HTTPClient :=
  { opts :=
      [ ClientOption.addHeader "User-Agent" "GitHub API x",
        ClientOption.addHeaderFunc "Authorization"
          (authorizationHeader exampleSys.gh.NormalizeHostname exampleGetter),
        ClientOption.addHeaderFunc "Time-Zone" timeZoneHeader,
        ClientOption.addHeaderFunc "Accept" (acceptHeader exampleSys.gh.IsEnterprise) ] }

/-- The process of `exampleSys` with `GH_PAGER` set to the empty string and `PAGER` set
to `more`. -/
def pagerSys : Sys :=
  { exampleSys with
    env := fun key =>
      if key = "GH_PAGER" then some "" else if key = "PAGER" then some "more" else none }

/-- The process of `exampleSys` with `BROWSER` set to `firefox`. -/
def browserSys : Sys :=
  { exampleSys with env := fun key => if key = "BROWSER" then some "firefox" else none }

/-- Remote `A` of the examples. -/
def remoteA : Remote :=
  { Name := "origin", RepoHost := "github.com", RepoOwner := "gepis", RepoName := "sm-gh-api" }

/-- Remote `B` of the examples. -/
def remoteB : Remote :=
  { Name := "upstream", RepoHost := "github.com", RepoOwner := "cli", RepoName := "cli" }

/-- A factory whose Remotes accessor returns `[A, B]` and whose other accessors are nil. -/
def remotesFactory : Factory :=
  { Factory.zero with Remotes := fun w => some (([remoteA, remoteB], none), w) }

/-- A factory whose Config accessor is the closure of `configFunc`, as `New` wires it. -/
def configFactory (sys : Sys) : Factory :=
  { Factory.zero with Config := configFunc sys.parse }

/-! ## The Config accessor -/

theorem InheritEnv_ne_none (c : Option Config) : InheritEnv c ≠ none := by
  cases c <;> simp [InheritEnv]

theorem configFunc_cached (parse : Parser) (w : World) (h : w.cached) :
    configFunc parse w =
      some ((w.cachedConfig, w.configError),
        { w with log := Call.configAccessor :: w.log }) := by
  unfold World.cached at h
  simp [configFunc, h]

theorem configFunc_fresh (parse : Parser) (w : World)
    (hc : w.cachedConfig = none) (he : w.configError = none) :
    configFunc parse w =
      some (recovered (parse w.parserCalls),
        { cachedConfig := (recovered (parse w.parserCalls)).1,
          configError := (recovered (parse w.parserCalls)).2,
          log := Call.parseDefaultConfig :: Call.configAccessor :: w.log }) := by
  simp only [configFunc, hc, he, recovered, World.parserCalls]
  by_cases hn : errorsIsNotExist (parse (List.count Call.parseDefaultConfig w.log)).2 = true
  · simp [hn, List.count_cons]
  · simp [hn, List.count_cons]

theorem recovered_fst_ne_none (r : ConfigResult) : (recovered r).1 ≠ none := by
  unfold recovered
  split <;> simp [InheritEnv_ne_none]

/-- Every call of the Config accessor returns, leaves a world that holds a result, returns
what that world holds, and invokes the parser at most once, and not at all from a world
that already held a result. -/
theorem configFunc_spec (parse : Parser) (w : World) :
    ∃ r w1, configFunc parse w = some (r, w1) ∧ w1.cached ∧
      r = (w1.cachedConfig, w1.configError) ∧
      w1.parserCalls ≤ w.parserCalls + 1 ∧
      (w.cached → r = (w.cachedConfig, w.configError) ∧ w1.parserCalls = w.parserCalls) := by
  by_cases h : w.cached
  · refine ⟨_, _, configFunc_cached parse w h, ?_, rfl, ?_, ?_⟩
    · exact h
    · simp [World.parserCalls, List.count_cons]
    · intro _
      simp [World.parserCalls, List.count_cons]
  · have hc : w.cachedConfig = none := by
      by_contra hc; exact h (Or.inl hc)
    have he : w.configError = none := by
      by_contra he; exact h (Or.inr he)
    refine ⟨_, _, configFunc_fresh parse w hc he, ?_, rfl, ?_, ?_⟩
    · exact Or.inl (recovered_fst_ne_none _)
    · simp [World.parserCalls, List.count_cons]
    · intro h1; exact absurd h1 h

/-- From a world that holds a result, any number of calls return that result and leave the
parser alone. -/
theorem callTimes_cached (parse : Parser) (n : Nat) (w : World) (h : w.cached) :
    ∃ w1, callTimes (configFunc parse) n w =
        some (List.replicate n (w.cachedConfig, w.configError), w1) ∧
      w1.cached ∧ w1.cachedConfig = w.cachedConfig ∧ w1.configError = w.configError ∧
      w1.parserCalls = w.parserCalls := by
  induction n generalizing w with
  | zero => exact ⟨w, rfl, h, rfl, rfl, rfl⟩
  | succ n ih =>
    have hw : World.cached { w with log := Call.configAccessor :: w.log } := h
    obtain ⟨w2, h2, hc2, e1, e2, e3⟩ := ih _ hw
    refine ⟨w2, ?_, hc2, e1, e2, ?_⟩
    · simp only [callTimes, configFunc_cached parse w h, h2]
      rfl
    · rw [e3]
      simp [World.parserCalls, List.count_cons]

/-- From any world, the first of `n + 1` calls decides the result of all of them. -/
theorem callTimes_succ (parse : Parser) (n : Nat) (w : World) :
    ∃ r w1 wn, configFunc parse w = some (r, w1) ∧
      callTimes (configFunc parse) (n + 1) w = some (List.replicate (n + 1) r, wn) ∧
      wn.parserCalls = w1.parserCalls := by
  obtain ⟨r, w1, h1, hc1, hr, -, -⟩ := configFunc_spec parse w
  obtain ⟨wn, hn, -, -, -, hp⟩ := callTimes_cached parse n w1 hc1
  refine ⟨r, w1, wn, h1, ?_, hp⟩
  simp only [callTimes, h1, hn, hr, List.replicate_succ]

/-- C1: from every state of the closure of `configFunc` and for every behaviour of the
parser, two successive calls of the Config accessor return the same (config, error) pair,
any number `n` of calls all return that pair, and all these calls together invoke the
parser at most once. A parse error is part of the pair like any other result. -/
theorem config_accessor_idempotent (parse : Parser) (w : World) (n : Nat) :
    ∃ r w1 w2 wn,
      configFunc parse w = some (r, w1) ∧ configFunc parse w1 = some (r, w2) ∧
      w2.parserCalls ≤ w.parserCalls + 1 ∧
      callTimes (configFunc parse) n w = some (List.replicate n r, wn) ∧
      wn.parserCalls ≤ w.parserCalls + 1 := by
  obtain ⟨r, w1, h1, hc1, hr, hp1, -⟩ := configFunc_spec parse w
  obtain ⟨r2, w2, h2, -, -, -, hsame⟩ := configFunc_spec parse w1
  obtain ⟨e2, hp2⟩ := hsame hc1
  have hr2 : r2 = r := by rw [e2, hr]
  cases n with
  | zero =>
    refine ⟨r, w1, w2, w, h1, ?_, ?_, rfl, Nat.le_succ _⟩
    · rw [h2, hr2]
    · rw [hp2]; exact hp1
  | succ n =>
    obtain ⟨r3, w3, wn, h3, hn, hpn⟩ := callTimes_succ parse n w
    have e3 : r3 = r ∧ w3 = w1 := by
      rw [h1] at h3
      simp only [Option.some.injEq, Prod.mk.injEq] at h3
      exact ⟨h3.1.symm, h3.2.symm⟩
    refine ⟨r, w1, w2, wn, h1, ?_, ?_, ?_, ?_⟩
    · rw [h2, hr2]
    · rw [hp2]; exact hp1
    · rw [hn, e3.1]
    · rw [hpn, e3.2]; exact hp1

/-- C2: in a fresh closure of `configFunc`, when the parser fails with an error that is or
wraps `os.ErrNotExist`, the Config accessor returns the blank configuration under the
environment layer and a nil error; for every other answer of the parser it returns the
parser's configuration under the environment layer and the parser's error unchanged. So it
reports an error exactly when the parser failed with something other than not-exist. All
`n + 1` calls return this pair. -/
theorem config_not_exist_recovered (parse : Parser) (n : Nat) :
    ∃ r w, callTimes (configFunc parse) (n + 1) World.init =
        some (List.replicate (n + 1) r, w) ∧
      r = (if errorsIsNotExist (parse 0).2 = true then (InheritEnv (some NewBlankConfig), none)
           else (InheritEnv (parse 0).1, (parse 0).2)) ∧
      (r.2 ≠ none ↔ ((parse 0).2 ≠ none ∧ errorsIsNotExist (parse 0).2 = false)) := by
  obtain ⟨r, w1, wn, h1, hn, -⟩ := callTimes_succ parse n World.init
  have hf := configFunc_fresh parse World.init rfl rfl
  rw [hf] at h1
  simp only [Option.some.injEq, Prod.mk.injEq] at h1
  have hr : r = recovered (parse 0) := h1.1.symm
  refine ⟨r, wn, hn, ?_, ?_⟩
  · rw [hr]; rfl
  · rw [hr]
    unfold recovered
    by_cases hx : errorsIsNotExist (parse 0).2 = true
    · simp [hx]
    · cases hp : (parse 0).2 with
      | none => simp [hp, errorsIsNotExist]
      | some e =>
        rw [hp] at hx
        simp [hp, hx]

/-! ## The header decorators -/

/-- The header functions of the client that `NewHTTPClient` returns. -/
theorem NewHTTPClient_headerFuncs (env : Environ) (gh : GhInstance) (io : Option IOStreams)
    (cfg : configGetter) (appVersion : String) (setAccept : Bool) (c : HTTPClient)
    (h : NewHTTPClient env gh io cfg appVersion setAccept = some (some c, none)) :
    c.headerFuncs "Authorization" = [authorizationHeader gh.NormalizeHostname cfg] ∧
    c.headerFuncs "Time-Zone" = [timeZoneHeader] ∧
    c.headerFuncs "Accept" = (if setAccept then [acceptHeader gh.IsEnterprise] else []) := by
  unfold NewHTTPClient at h
  simp only at h
  split at h
  · simp at h
  · split at h
    · simp at h
    · rename_i opts hopts
      simp only [Option.some.injEq, Prod.mk.injEq, and_true] at h
      subst h
      split at hopts
      · split at hopts
        · simp at hopts
        · simp only [Option.some.injEq] at hopts
          subst hopts
          cases setAccept <;> split <;> simp [HTTPClient.headerFuncs, List.filterMap_append]
      · simp only [Option.some.injEq] at hopts
        subst hopts
        cases setAccept <;> split <;> simp [HTTPClient.headerFuncs, List.filterMap_append]

/-- A key of a map without empty values is in the map exactly when indexing it gives a
non-empty value. -/
theorem mapIndex_ne_empty_iff (m : List (Int × String)) (hm : ∀ kv ∈ m, kv.2 ≠ "")
    (key : Int) : mapIndex m key ≠ "" ↔ key ∈ m.map Prod.fst := by
  induction m with
  | nil => simp [mapIndex]
  | cons kv rest ih =>
    have hrest : ∀ kv ∈ rest, kv.2 ≠ "" := fun x hx => hm x (List.mem_cons_of_mem _ hx)
    have hkv : kv.2 ≠ "" := hm kv (List.mem_cons_self _ _)
    have ih := ih hrest
    by_cases hk : kv.1 = key
    · simp [mapIndex, List.find?_cons, hk, hkv]
    · have hk2 : ¬ key = kv.1 := fun e => hk e.symm
      have hb : (kv.1 == key) = false := by simp [hk]
      unfold mapIndex at ih ⊢
      rw [List.find?_cons]
      simp only [hb, List.map_cons, List.mem_cons, hk2, false_or]
      exact ih

theorem timezoneNames_values : ∀ kv ∈ timezoneNames, kv.2 ≠ "" := by
  decide

/-- The client of the examples: the one `NewHTTPClient` builds for version `x` with accept
negotiation on, when `DEBUG` is unset and no unix socket is configured. -/
theorem exampleClient_built :
    NewHTTPClient exampleSys.env exampleSys.gh none exampleGetter "x" true =
      some (some exampleClient, none) := by
  rfl

/-- C3: the client that `NewHTTPClient` returns has one `Authorization` decorator. For a
request it takes the host from the request's `Host` field when that is non-empty and from
the hostname of the URL otherwise, normalizes it and looks up `oauth_token` for it. When
the lookup succeeds with a non-empty token the value is `token ` followed by the token;
when it fails or gives an empty token the value is empty. The decorator never fails. -/
theorem authorization_decorator (env : Environ) (gh : GhInstance) (io : Option IOStreams)
    (cfg : configGetter) (appVersion : String) (setAccept : Bool) (c : HTTPClient)
    (clock : Clock) (req : Request) (hostname token : String) (err : Option GoError)
    (hc : NewHTTPClient env gh io cfg appVersion setAccept = some (some c, none))
    (hhost : hostname =
      gh.NormalizeHostname (if req.Host ≠ "" then req.Host else req.URL.Hostname))
    (hget : cfg hostname "oauth_token" = (token, err)) :
    (c.headerFuncs "Authorization").map (fun g => g clock req) =
      [(if err = none ∧ token ≠ "" then "token " ++ token else "", none)] := by
  obtain ⟨ha, -, -⟩ := NewHTTPClient_headerFuncs env gh io cfg appVersion setAccept c hc
  rw [ha]
  simp only [List.map_cons, List.map_nil, authorizationHeader, getHost]
  rw [← hhost, hget]
  by_cases h : err = none ∧ token ≠ ""
  · simp only [h, ne_eq, not_false_eq_true, and_self, if_true]
  · simp only [h, if_false]

/-- Witness of C3: a request without `Host` field to `github.com:443`, for which the
configuration holds the token `abc123`, gets `token abc123`. -/
theorem authorization_decorator_witness :
    NewHTTPClient exampleSys.env exampleSys.gh none exampleGetter "x" true =
        some (some exampleClient, none) ∧
      "github.com" = exampleSys.gh.NormalizeHostname
        (if ({ Method := "GET", Host := "", URL := { Host := "github.com:443" } } :
              Request).Host ≠ "" then
          ({ Method := "GET", Host := "", URL := { Host := "github.com:443" } } :
              Request).Host
         else
          ({ Method := "GET", Host := "", URL := { Host := "github.com:443" } } :
              Request).URL.Hostname) ∧
      exampleGetter "github.com" "oauth_token" = ("abc123", none) ∧
      (exampleClient.headerFuncs "Authorization").map
          (fun g => g { localName := "UTC", zoneOffset := 0 }
            { Method := "GET", Host := "", URL := { Host := "github.com:443" } }) =
        [("token abc123", none)] :=
  ⟨exampleClient_built, by decide, by decide,
    authorization_decorator exampleSys.env exampleSys.gh none exampleGetter "x" true
      exampleClient { localName := "UTC", zoneOffset := 0 }
      { Method := "GET", Host := "", URL := { Host := "github.com:443" } }
      "github.com" "abc123" none exampleClient_built (by decide) (by decide)⟩

/-- C4: the client that `NewHTTPClient` returns has an `Accept` decorator exactly when
`setAccept` is true. Its value is the two base tokens joined by a comma and a blank, and
the two enterprise tokens are appended after them, in order, exactly when the target host
of the request is classified as enterprise. The target host is the request's `Host` field
when that is non-empty and the hostname of the URL otherwise. The decorator never
fails. -/
theorem accept_decorator (env : Environ) (gh : GhInstance) (io : Option IOStreams)
    (cfg : configGetter) (appVersion : String) (setAccept : Bool) (c : HTTPClient)
    (clock : Clock) (req : Request)
    (hc : NewHTTPClient env gh io cfg appVersion setAccept = some (some c, none)) :
    (c.headerFuncs "Accept").map (fun g => g clock req) =
      (if setAccept = true then
        [(", ".intercalate
            (["application/vnd.github.merge-info-preview+json",
              "application/vnd.github.nebula-preview"] ++
             (if gh.IsEnterprise
                  (if req.Host ≠ "" then req.Host else req.URL.Hostname) = true then
                ["application/vnd.github.antiope-preview",
                 "application/vnd.github.shadow-cat-preview"]
              else [])), none)]
       else []) := by
  obtain ⟨-, -, ha⟩ := NewHTTPClient_headerFuncs env gh io cfg appVersion setAccept c hc
  rw [ha]
  cases setAccept with
  | false => simp
  | true =>
    simp only [if_true, List.map_cons, List.map_nil, acceptHeader, getHost]
    by_cases he :
        gh.IsEnterprise (if req.Host ≠ "" then req.Host else req.URL.Hostname) = true
    · rw [if_pos he, if_pos he]
      rfl
    · rw [if_neg he, if_neg he]
      rfl

/-- Witness of C4: a request whose `Host` field names the enterprise host
`ghe.example.org`, while its URL names `github.com`, gets the two base tokens followed by
the two enterprise tokens; a request without `Host` field to `github.com:443` gets the two
base tokens only. -/
theorem accept_decorator_witness :
    NewHTTPClient exampleSys.env exampleSys.gh none exampleGetter "x" true =
        some (some exampleClient, none) ∧
      (exampleClient.headerFuncs "Accept").map
          (fun g => g { localName := "UTC", zoneOffset := 0 }
            { Method := "GET", Host := "ghe.example.org",
              URL := { Host := "github.com" } }) =
        [("application/vnd.github.merge-info-preview+json, " ++
          "application/vnd.github.nebula-preview, " ++
          "application/vnd.github.antiope-preview, " ++
          "application/vnd.github.shadow-cat-preview", none)] ∧
      (exampleClient.headerFuncs "Accept").map
          (fun g => g { localName := "UTC", zoneOffset := 0 }
            { Method := "GET", Host := "", URL := { Host := "github.com:443" } }) =
        [("application/vnd.github.merge-info-preview+json, " ++
          "application/vnd.github.nebula-preview", none)] :=
  ⟨exampleClient_built,
    accept_decorator exampleSys.env exampleSys.gh none exampleGetter "x" true
      exampleClient { localName := "UTC", zoneOffset := 0 }
      { Method := "GET", Host := "ghe.example.org", URL := { Host := "github.com" } }
      exampleClient_built,
    accept_decorator exampleSys.env exampleSys.gh none exampleGetter "x" true
      exampleClient { localName := "UTC", zoneOffset := 0 }
      { Method := "GET", Host := "", URL := { Host := "github.com:443" } }
      exampleClient_built⟩

/-- C5, as stated, fails: for a POST request, with the local zone reported as the
placeholder `Local` and an offset of 45900 seconds (UTC+12:45, which the table does not
list), the Time-Zone decorator of the client yields the empty value, so no header. -/
theorem timezone_header_missing_for_post :
    "POST" ≠ "GET" ∧ "POST" ≠ "HEAD" ∧
      (exampleClient.headerFuncs "Time-Zone").map
          (fun g => g { localName := "Local", zoneOffset := 45900 }
            { Method := "POST", Host := "", URL := { Host := "api.github.com" } }) =
        [("", none)] := by
  decide

/-- C5, amended: the client that `NewHTTPClient` returns has one `Time-Zone` decorator. Its
value is empty for GET and HEAD; for every other method it is the local zone name when
that is not the placeholder `Local`, and otherwise the entry of `timezoneNames` for the
current offset, which is empty when the offset is not a key of the table. So for a method
other than GET and HEAD there is a header exactly when the zone name is neither `Local`
nor empty, or it is `Local` and the offset is a key of the table. The decorator never
fails. -/
theorem timezone_decorator (env : Environ) (gh : GhInstance) (io : Option IOStreams)
    (cfg : configGetter) (appVersion : String) (setAccept : Bool) (c : HTTPClient)
    (clock : Clock) (req : Request)
    (hc : NewHTTPClient env gh io cfg appVersion setAccept = some (some c, none)) :
    c.headerFuncs "Time-Zone" = [timeZoneHeader] ∧
      timeZoneHeader clock req =
        (if req.Method = "GET" ∨ req.Method = "HEAD" then ""
         else if clock.localName = "Local" then mapIndex timezoneNames clock.zoneOffset
         else clock.localName, none) ∧
      (mapIndex timezoneNames clock.zoneOffset ≠ "" ↔
        clock.zoneOffset ∈ timezoneNames.map Prod.fst) ∧
      ((timeZoneHeader clock req).1 ≠ "" ↔
        ¬ (req.Method = "GET" ∨ req.Method = "HEAD") ∧
          ((clock.localName ≠ "Local" ∧ clock.localName ≠ "") ∨
           (clock.localName = "Local" ∧
             clock.zoneOffset ∈ timezoneNames.map Prod.fst))) := by
  obtain ⟨-, ht, -⟩ := NewHTTPClient_headerFuncs env gh io cfg appVersion setAccept c hc
  have hiff := mapIndex_ne_empty_iff timezoneNames timezoneNames_values clock.zoneOffset
  refine ⟨ht, ?_, hiff, ?_⟩
  · simp only [timeZoneHeader]
    by_cases hg : req.Method = "GET"
    · simp [hg]
    · by_cases hh : req.Method = "HEAD"
      · simp [hh]
      · by_cases hl : clock.localName = "Local"
        · simp [hg, hh, hl]
        · simp [hg, hh, hl]
  · simp only [timeZoneHeader]
    rw [← hiff]
    by_cases hg : req.Method = "GET"
    · simp [hg]
    · by_cases hh : req.Method = "HEAD"
      · simp [hh]
      · by_cases hl : clock.localName = "Local"
        · simp [hg, hh, hl]
        · simp [hg, hh, hl]

/-- Witness of C5: with the zone name `Local` and offset 0, a POST request gets
`Europe/London`. -/
theorem timezone_decorator_witness :
    NewHTTPClient exampleSys.env exampleSys.gh none exampleGetter "x" true =
        some (some exampleClient, none) ∧
      exampleClient.headerFuncs "Time-Zone" = [timeZoneHeader] ∧
      timeZoneHeader { localName := "Local", zoneOffset := 0 }
          { Method := "POST", Host := "", URL := { Host := "api.github.com" } } =
        ("Europe/London", none) :=
  ⟨exampleClient_built,
    (timezone_decorator exampleSys.env exampleSys.gh none exampleGetter "x" true
      exampleClient { localName := "Local", zoneOffset := 0 }
      { Method := "POST", Host := "", URL := { Host := "api.github.com" } }
      exampleClient_built).1,
    (timezone_decorator exampleSys.env exampleSys.gh none exampleGetter "x" true
      exampleClient { localName := "Local", zoneOffset := 0 }
      { Method := "POST", Host := "", URL := { Host := "api.github.com" } }
      exampleClient_built).2.1⟩

/-! ## Precedence of browser and pager -/

theorem ite_empty_self (x : String) : (if x = "" then "" else x) = x := by
  split
  · rename_i h; exact h.symm
  · rfl

/-- The result of the closure of `configFunc` is never a nil configuration with a nil
error. -/
theorem configFunc_wellformed (parse : Parser) (w : World) :
    ∃ r w1, configFunc parse w = some (r, w1) ∧ (r.2 = none → r.1 ≠ none) := by
  obtain ⟨r, w1, h1, hc1, hr, -, -⟩ := configFunc_spec parse w
  refine ⟨r, w1, h1, ?_⟩
  intro h2
  rw [hr] at h2 ⊢
  rcases hc1 with hc | he
  · exact hc
  · exact absurd h2 he

/-- C6: whenever the Config accessor returns, and does not return a nil configuration
together with a nil error, `browserLauncher` returns the first non-empty value among
`GH_BROWSER`, the unscoped configuration key `browser` and `BROWSER`, in this order, and
the empty string when none is non-empty. An unset variable counts as empty, and a failed
Config accessor supplies no value for the key. -/
theorem browser_precedence (sys : Sys) (f : Factory) (w w1 : World) (r : ConfigResult)
    (hcfg : f.Config w = some (r, w1)) (hwf : r.2 = none → r.1 ≠ none) :
    (browserLauncher sys f w).map Prod.fst =
      some (firstNonEmpty
        [Getenv sys.env "GH_BROWSER", configValue sys r "browser",
         Getenv sys.env "BROWSER"]) := by
  obtain ⟨cfg, err⟩ := r
  unfold browserLauncher
  by_cases hgh : Getenv sys.env "GH_BROWSER" = ""
  · simp only [hgh, ne_eq, not_true_eq_false, if_false, hcfg, firstNonEmpty]
    cases err with
    | some e => simp [configValue, ite_empty_self]
    | none =>
      cases cfg with
      | none => exact absurd rfl (hwf rfl)
      | some c =>
        by_cases hb : (sys.cfgGet c "" "browser").1 = ""
        · simp [configValue, hb, ite_empty_self]
        · simp [configValue, hb]
  · simp [hgh, firstNonEmpty]

/-- Witness of C6: with `GH_BROWSER` unset, no `browser` key in the configuration and
`BROWSER` set to `firefox`, the launcher is `firefox`. -/
theorem browser_precedence_witness :
    (configFactory browserSys).Config World.init =
        some ((some (Config.envLayer Config.blank), none),
          { cachedConfig := some (Config.envLayer Config.blank), configError := none,
            log := [Call.parseDefaultConfig, Call.configAccessor] }) ∧
      (((some (Config.envLayer Config.blank), none) : ConfigResult).2 = none →
        ((some (Config.envLayer Config.blank), none) : ConfigResult).1 ≠ none) ∧
      (browserLauncher browserSys (configFactory browserSys) World.init).map Prod.fst =
        some "firefox" :=
  ⟨by decide, by decide,
    browser_precedence browserSys (configFactory browserSys) World.init
      { cachedConfig := some (Config.envLayer Config.blank), configError := none,
        log := [Call.parseDefaultConfig, Call.configAccessor] }
      (some (Config.envLayer Config.blank), none) (by decide) (by decide)⟩

/-- C10, as stated, fails: with `GH_PAGER` set to the empty string, the configuration key
`pager` equal to `less` and `PAGER` equal to `more`, the pager that `ioStreams` configures
is empty, while the first non-empty of the three sources is `less`. -/
theorem pager_empty_gh_pager_wins :
    LookupEnv pagerSys.env "GH_PAGER" = ("", true) ∧
      (pagerSys.cfgGet (Config.envLayer Config.blank) "" "pager").1 = "less" ∧
      Getenv pagerSys.env "PAGER" = "more" ∧
      (ioStreams pagerSys (configFactory pagerSys) World.init).map
          (fun r => r.1.pagerCommand) = some "" ∧
      firstNonEmpty [Getenv pagerSys.env "GH_PAGER", "less", Getenv pagerSys.env "PAGER"] =
        "less" := by
  decide

/-- C10, amended: when the Config accessor returns a configuration and no error, the pager
that `ioStreams` configures is the value of `GH_PAGER` whenever that variable is set, also
when it is set to the empty string; when `GH_PAGER` is unset it is the first non-empty
value among the unscoped configuration key `pager` and `PAGER`, and empty when both are
empty. -/
theorem pager_precedence (sys : Sys) (f : Factory) (w w1 : World) (cfg : Config)
    (hcfg : f.Config w = some ((some cfg, none), w1)) :
    (ioStreams sys f w).map (fun r => r.1.pagerCommand) =
      some (match sys.env "GH_PAGER" with
        | some ghPager => ghPager
        | none => firstNonEmpty [(sys.cfgGet cfg "" "pager").1, Getenv sys.env "PAGER"]) := by
  unfold ioStreams
  simp only [hcfg, ne_eq, not_true_eq_false, if_false, LookupEnv, System]
  cases hgh : sys.env "GH_PAGER" with
  | some v =>
    by_cases hp : (sys.cfgGet cfg "" "prompt").1 = "disabled"
    · simp [hp, IOStreams.SetPager, IOStreams.SetNeverPrompt]
    · simp [hp, IOStreams.SetPager]
  | none =>
    by_cases hp : (sys.cfgGet cfg "" "prompt").1 = "disabled"
    · by_cases hb : (sys.cfgGet cfg "" "pager").1 = ""
      · by_cases hq : Getenv sys.env "PAGER" = ""
        · simp [hp, hb, hq, firstNonEmpty, IOStreams.SetNeverPrompt]
        · simp [hp, hb, hq, firstNonEmpty, IOStreams.SetNeverPrompt, ite_empty_self]
      · simp [hp, hb, firstNonEmpty, IOStreams.SetPager, IOStreams.SetNeverPrompt]
    · by_cases hb : (sys.cfgGet cfg "" "pager").1 = ""
      · by_cases hq : Getenv sys.env "PAGER" = ""
        · simp [hp, hb, hq, firstNonEmpty]
        · simp [hp, hb, hq, firstNonEmpty, ite_empty_self]
      · simp [hp, hb, firstNonEmpty, IOStreams.SetPager]

/-- Witness of C10: with `GH_PAGER` set to the empty string, the pager is empty although
the configuration key `pager` is `less` and `PAGER` is `more`. -/
theorem pager_precedence_witness :
    (configFactory pagerSys).Config World.init =
        some ((some (Config.envLayer Config.blank), none),
          { cachedConfig := some (Config.envLayer Config.blank), configError := none,
            log := [Call.parseDefaultConfig, Call.configAccessor] }) ∧
      (ioStreams pagerSys (configFactory pagerSys) World.init).map
          (fun r => r.1.pagerCommand) = some "" :=
  ⟨by decide,
    pager_precedence pagerSys (configFactory pagerSys) World.init
      { cachedConfig := some (Config.envLayer Config.blank), configError := none,
        log := [Call.parseDefaultConfig, Call.configAccessor] }
      (Config.envLayer Config.blank) (by decide)⟩

/-! ## Construction of the factory -/

/-- Whenever the Config accessor returns a well-formed pair, `ioStreams` returns and leaves
the world that the accessor leaves. -/
theorem ioStreams_world (sys : Sys) (f : Factory) (w w1 : World) (r : ConfigResult)
    (hcfg : f.Config w = some (r, w1)) (hwf : r.2 = none → r.1 ≠ none) :
    ∃ io, ioStreams sys f w = some (io, w1) := by
  obtain ⟨cfg, err⟩ := r
  unfold ioStreams
  simp only [hcfg]
  cases err with
  | some e => simp
  | none =>
    cases cfg with
    | none => exact absurd rfl (hwf rfl)
    | some c => simp

/-- Whenever the Config accessor returns a well-formed pair and the streams are in place,
`browser` returns; the accessor is called only when `GH_BROWSER` is empty. -/
theorem browser_world (sys : Sys) (f : Factory) (w w1 : World) (r : ConfigResult)
    (io : IOStreams) (hio : f.IOStreams = some io)
    (hcfg : f.Config w = some (r, w1)) (hwf : r.2 = none → r.1 ≠ none) :
    ∃ b, browser sys f w =
      some (b, if Getenv sys.env "GH_BROWSER" ≠ "" then w else w1) := by
  obtain ⟨cfg, err⟩ := r
  unfold browser browserLauncher
  by_cases hgh : Getenv sys.env "GH_BROWSER" = ""
  · simp only [hgh, ne_eq, not_true_eq_false, if_false, hcfg, hio]
    cases err with
    | some e => simp
    | none =>
      cases cfg with
      | none => exact absurd rfl (hwf rfl)
      | some c =>
        by_cases hb : (sys.cfgGet c "" "browser").1 = ""
        · simp [hb]
        · simp [hb]
  · simp [hgh, hio]

/-- With the closure of `configFunc` as Config accessor, `ioStreams` returns and leaves the
world that one call of the accessor leaves. -/
theorem ioStreams_configFunc (sys : Sys) (f : Factory) (w : World)
    (res : Option (IOStreams × World)) (heq : ioStreams sys f w = res)
    (hf : f.Config = configFunc sys.parse) :
    ∃ io r w1, res = some (io, w1) ∧ configFunc sys.parse w = some (r, w1) := by
  obtain ⟨r, w1, h1, hwf⟩ := configFunc_wellformed sys.parse w
  obtain ⟨io, hio⟩ := ioStreams_world sys f w w1 r (by rw [hf]; exact h1) hwf
  exact ⟨io, r, w1, heq.symm.trans hio, h1⟩

/-- With the closure of `configFunc` as Config accessor and streams in place, `browser`
returns; it leaves the world alone when `GH_BROWSER` is non-empty and otherwise leaves the
world that one call of the accessor leaves. -/
theorem browser_configFunc (sys : Sys) (f : Factory) (w : World) (io : IOStreams)
    (res : Option (Browser × World)) (heq : browser sys f w = res)
    (hf : f.Config = configFunc sys.parse) (hio : f.IOStreams = some io) :
    ∃ b r w1, configFunc sys.parse w = some (r, w1) ∧
      res = some (b, if Getenv sys.env "GH_BROWSER" ≠ "" then w else w1) := by
  obtain ⟨r, w1, h1, hwf⟩ := configFunc_wellformed sys.parse w
  obtain ⟨b, hb⟩ := browser_world sys f w w1 r io hio (by rw [hf]; exact h1) hwf
  exact ⟨b, r, w1, h1, heq.symm.trans hb⟩

/-- C8, as stated, fails: in a process without environment variables and without a
configuration file, `New()` returns after two calls of the Config accessor and one
invocation of the parser, not zero of each. -/
theorem new_reads_config_eagerly :
    (New exampleSys).map (fun r => (r.2.configCalls, r.2.parserCalls)) = some (2, 1) := by
  decide

/-- C8, amended: `New()` always returns, and while it runs it calls `os.Executable`, then
the Config accessor inside `ioStreams`, which invokes the parser, and then the Config
accessor once more inside `browserLauncher` unless `GH_BROWSER` is non-empty. So the
parser is invoked exactly once during construction and the Config accessor once or twice;
the Branch, Remotes and HttpClient accessors are not called. -/
theorem new_evaluates_config (sys : Sys) :
    ∃ f w, New sys = some (f, w) ∧
      w.log = (if Getenv sys.env "GH_BROWSER" ≠ "" then
          [Call.parseDefaultConfig, Call.configAccessor, Call.osExecutable]
        else
          [Call.configAccessor, Call.parseDefaultConfig, Call.configAccessor,
           Call.osExecutable]) ∧
      w.parserCalls = 1 ∧
      w.configCalls = (if Getenv sys.env "GH_BROWSER" ≠ "" then 1 else 2) ∧
      w.log.count Call.branchAccessor = 0 ∧ w.log.count Call.remotesAccessor = 0 ∧
      w.log.count Call.httpClientAccessor = 0 := by
  have hlog : ∃ f w, New sys = some (f, w) ∧
      w.log = (if Getenv sys.env "GH_BROWSER" ≠ "" then
          [Call.parseDefaultConfig, Call.configAccessor, Call.osExecutable]
        else
          [Call.configAccessor, Call.parseDefaultConfig, Call.configAccessor,
           Call.osExecutable]) := by
    have hf :=
      configFunc_fresh sys.parse { World.init with log := [Call.osExecutable] } rfl rfl
    unfold New executable
    simp only
    split
    · rename_i heq
      obtain ⟨io, r, w1, hres, -⟩ := ioStreams_configFunc sys _ _ _ heq (by rfl)
      cases hres
    · rename_i io w1 heq
      obtain ⟨io2, r, w2, hres, h1⟩ := ioStreams_configFunc sys _ _ _ heq (by rfl)
      simp only [Option.some.injEq, Prod.mk.injEq] at hres
      obtain ⟨-, hww⟩ := hres
      subst hww
      have h1' := hf.symm.trans h1
      simp only [Option.some.injEq, Prod.mk.injEq] at h1'
      obtain ⟨-, hw1⟩ := h1'
      have hc1 : w1.cached := by
        rw [← hw1]; exact Or.inl (recovered_fst_ne_none _)
      have h2 := configFunc_cached sys.parse w1 hc1
      split
      · rename_i heq2
        obtain ⟨b, r2, w3, -, hres2⟩ :=
          browser_configFunc sys _ _ io _ heq2 (by rfl) (by rfl)
        cases hres2
      · rename_i b w4 heq2
        obtain ⟨b2, r2, w3, h3, hres2⟩ :=
          browser_configFunc sys _ _ io _ heq2 (by rfl) (by rfl)
        refine ⟨_, _, rfl, ?_⟩
        simp only [Option.some.injEq, Prod.mk.injEq] at hres2
        have h3' := h2.symm.trans h3
        simp only [Option.some.injEq, Prod.mk.injEq] at h3'
        rw [hres2.2, ← h3'.2, ← hw1]
        by_cases hgh : Getenv sys.env "GH_BROWSER" = ""
        · simp [hgh]
        · simp [hgh]
  obtain ⟨f, w, hnew, hl⟩ := hlog
  refine ⟨f, w, hnew, hl, ?_⟩
  unfold World.parserCalls World.configCalls
  rw [hl]
  by_cases hgh : Getenv sys.env "GH_BROWSER" = ""
  · simp [hgh]
  · simp [hgh]

/-! ## The fast base repository -/

/-- C7: whenever the Remotes accessor returns, and does not return an empty list together
with a nil error, the closure of `BaseRepoFunc` returns. It returns the first remote and a
nil error when the accessor gave a nil error, and no repository together with the
accessor's error otherwise. It leaves the world exactly as the Remotes accessor left it,
and it is the same function whatever the HttpClient accessor of the factory is: that
accessor is never called. -/
theorem base_repo_first_remote (f : Factory) (w w1 : World) (remotes : List Remote)
    (err : Option GoError) (httpClient : Accessor (Option HTTPClient × Option GoError))
    (hrem : f.Remotes w = some ((remotes, err), w1))
    (hne : err = none → remotes ≠ []) :
    BaseRepoFunc f w = some ((if err = none then remotes.head? else none, err), w1) ∧
      BaseRepoFunc { f with HttpClient := httpClient } = BaseRepoFunc f := by
  refine ⟨?_, rfl⟩
  unfold BaseRepoFunc
  simp only [hrem]
  cases err with
  | some e => simp
  | none =>
    cases remotes with
    | nil => exact absurd rfl (hne rfl)
    | cons r rest => simp

/-- Witness of C7: the remotes `[A, B]` give `A`. -/
theorem base_repo_first_remote_witness :
    remotesFactory.Remotes World.init = some (([remoteA, remoteB], none), World.init) ∧
      ((none : Option GoError) = none → [remoteA, remoteB] ≠ []) ∧
      BaseRepoFunc remotesFactory World.init = some ((some remoteA, none), World.init) :=
  ⟨rfl, fun _ => by decide,
    (base_repo_first_remote remotesFactory World.init World.init [remoteA, remoteB] none
      nilFunc rfl (fun _ => by decide)).1⟩

/-! ## The arguments of `extensions upgrade` -/

/-- C9: the argument validator of `extensions upgrade` returns nil exactly when one name
is given without `--all`, or `--all` is given without a name. In every other case it
returns a usage error, the command ends in that error, and the manager's `Upgrade` is not
called. When the validator accepts, `Upgrade` is called once. -/
theorem upgrade_args_exactly_one (upgrade : String → Option GoError) (flagAll : Bool)
    (args : List String) :
    (upgradeArgs flagAll args = none ↔
        (args.length = 1 ∧ flagAll = false) ∨ (args.length = 0 ∧ flagAll = true)) ∧
      (upgradeArgs flagAll args ≠ none ↔
        ∃ e, upgradeCommand upgrade flagAll args = (CmdResult.usage e, [])) ∧
      (upgradeArgs flagAll args = none ↔
        upgradeCommand upgrade flagAll args =
          (CmdResult.ran (upgrade (args.headD "")), [args.headD ""])) := by
  cases flagAll <;> rcases args with _ | ⟨a, _ | ⟨b, rest⟩⟩ <;>
    simp [upgradeArgs, upgradeCommand, upgradeRunE]

end SmGhApi
